import Mathlib

/-
Verification of the sdcadm update-agents core: a shallow embedding of the
error taxonomy (lib/errors.js) and of the UpdateAgentV1 procedure
(lib/procedures/update-agent-v1.js), together with theorems checking the
natural-language specification against it.

Conventions of the embedding:
- JavaScript callbacks are modelled as pure functions returning explicit
  result values; a JavaScript exception thrown where the code would
  dereference undefined is modelled by a distinguished crash constructor.
- Remote collaborators (cnapi) are modelled by an environment record of
  response functions; a poll loop receives the stream of responses as a
  function from the attempt number (1-based, the value of the counter
  variable in the source) to the response of that attempt.
- The source loops guard retries with counter < limit (limit = 60); the
  embedding carries the remaining retry budget k = limit - counter so the
  recursion is structural. Invoked with k = 59 and counter = 1, timeout
  fires exactly when the counter reaches 60, as in the source.
-/

namespace Sdcadm

-- ---------------------------------------------------------------------------
-- Error taxonomy (lib/errors.js)
-- ---------------------------------------------------------------------------

/-- Value of a JavaScript field that the error constructors inspect with
assert-plus type assertions: either a string or some non-string value. -/
inductive JsVal : Type where
  | vstr (s : String)
  | vother
deriving DecidableEq

/-- Entry of the errors array of a remote error body; the source reads
e.field, e.code (stringified with a format directive) and tests e.message
for truthiness before appending it. -/
structure ErrEntry where
  field : String
  code : String
  message : Option String
deriving DecidableEq

/-- Body of a remote collaborator error, as inspected by SDCClientError:
cause.body.code (optional string), cause.body.message (asserted string),
cause.body.errors (optional array). -/
structure ClientBody where
  code : Option JsVal
  message : Option JsVal
  errors : Option (List ErrEntry)
deriving DecidableEq

/-- Cause object passed to SDCClientError; the embedding assumes the body
property itself is present (the source would throw a TypeError otherwise,
before any assertion fires). -/
structure CCause where
  body : ClientBody
deriving DecidableEq

/-- Error value produced by the SdcAdmError hierarchy: a machine-readable
code, a message, an exitStatus, and an optional wrapped cause which is
either a raw client error object (SDCClientError) or another error of the
hierarchy (MultiError wraps its first child). -/
inductive SdcErr : Type where
  | mk (code : String) (message : String) (exitStatus : Nat)
       (cause : Option (CCause ⊕ SdcErr))

def SdcErr.code : SdcErr → String
  | .mk c _ _ _ => c

def SdcErr.message : SdcErr → String
  | .mk _ m _ _ => m

def SdcErr.exitStatus : SdcErr → Nat
  | .mk _ _ s _ => s

def SdcErr.cause : SdcErr → Option (CCause ⊕ SdcErr)
  | .mk _ _ _ c => c

/-- InternalError: sets options.code to the string InternalError (note: not
Internal) and exitStatus 1. -/
def internalError (message : String) (cause : Option (CCause ⊕ SdcErr)) : SdcErr :=
  .mk "InternalError" message 1 cause

/-- UsageError: code Usage, exitStatus 2. -/
def usageError (cause : Option (CCause ⊕ SdcErr)) (message : String) : SdcErr :=
  .mk "Usage" message 2 cause

/-- UpdateError: code Update, exitStatus 2. Every call site in the
update-agent procedure passes a message only (cause = none). -/
def updateError (cause : Option (CCause ⊕ SdcErr)) (message : String) : SdcErr :=
  .mk "Update" message 2 cause

/-- Line appended to the SDCClientError message for one entry of
cause.body.errors; the source appends the colon-message part only when
e.message is truthy (present and non-empty). -/
def errEntryLine (e : ErrEntry) : String :=
  "\n    " ++ e.field ++ ": " ++ e.code ++
    (match e.message with
     | some em => if em = "" then "" else ": " ++ em
     | none => "")

/-- Concatenation of the per-entry lines, mirroring the forEach loop that
appends each line to msg in order. -/
def errLines : List ErrEntry → String
  | [] => ""
  | e :: rest => errEntryLine e ++ errLines rest

/-- SDCClientError constructor. The assert-plus preconditions are modelled
as an Except: assert.optionalString(cause.body.code) and
assert.string(cause.body.message) throw an AssertionError (the error
branch) when violated. On success the message embeds the client name, the
remote code when truthy, the remote message, and one line per entry of
cause.body.errors; code is SDCClient and exitStatus 1, the cause is the
original client error object. -/
def sdcClientError (cause : CCause) (clientName : String) : Except String SdcErr :=
  match cause.body.code with
  | some .vother => .error "cause.body.code (string) is required"
  | some (.vstr _) | none =>
    match cause.body.message with
    | some (.vstr m) =>
      let codeExtra : String :=
        match cause.body.code with
        | some (.vstr c) => if c = "" then "" else " (" ++ c ++ ")"
        | _ => ""
      let msg := m ++ errLines (cause.body.errors.getD [])
      .ok (.mk "SDCClient" (clientName ++ " client error" ++ codeExtra ++ ": " ++ msg)
             1 (some (.inl cause)))
    | _ => .error "cause.body.message (string) is required"

/-- MultiError: message is a digest line followed by one line per child
with its code and message; code MultiError, exitStatus 1, cause is the
first child (none for an empty list, where errs[0] is undefined and
assert.optionalObject accepts it). -/
def multiError (errs : List SdcErr) : SdcErr :=
  .mk "MultiError"
    (String.intercalate "\n"
      (("multiple (" ++ toString errs.length ++ ") errors") ::
        errs.map (fun e => "    error (" ++ e.code ++ "): " ++ e.message)))
    1
    (errs.head?.map .inr)

/-- Well-formed remote collaborator error, shaped as the eng.git error
contract promises: a string message, an optional string code, and an array
of field errors. The cnapi client errors wrapped during the update flow
are of this shape. -/
structure RemoteErr where
  message : String
  code : Option String
  errors : List ErrEntry
deriving DecidableEq

/-- View of a well-formed remote error as the raw cause object. -/
def reToBody (re : RemoteErr) : CCause :=
  ⟨⟨re.code.map .vstr, some (.vstr re.message), some re.errors⟩⟩

/-- Result of constructing SDCClientError from a well-formed remote error;
on such causes the assertions always pass (see sdcClientError_reToBody). -/
def sdcClientErrorWF (re : RemoteErr) (clientName : String) : SdcErr :=
  let codeExtra : String :=
    match re.code with
    | some c => if c = "" then "" else " (" ++ c ++ ")"
    | none => ""
  .mk "SDCClient"
    (clientName ++ " client error" ++ codeExtra ++ ": " ++ re.message ++ errLines re.errors)
    1 (some (.inl (reToBody re)))

-- ---------------------------------------------------------------------------
-- Constants of UpdateAgentV1 (lib/procedures/update-agent-v1.js)
-- ---------------------------------------------------------------------------

namespace UpdateAgentV1

/-- Minimal required CNAPI image build timestamp (CNAPI-508, CNAPI-511). -/
def MIN_CNAPI_VERSION : String := "20150407T172714Z"

/-- First cn-agent version able to run the install_agent task (declared in
the source but not referenced by the update flow). -/
def MIN_CN_AGENT_VERSION : String := "2015-04-07T11:26:47Z"

/-- Number of CNs updated in parallel (concurrency of the vasync queue). -/
def CN_CONCUR : Nat := 10

end UpdateAgentV1

/-- Interval in milliseconds between poll attempts (the setTimeout delay in
both poll loops). -/
def pollIntervalMs : Nat := 5000

-- ---------------------------------------------------------------------------
-- Task-status poll loop: waitUntilTaskCompletes
-- ---------------------------------------------------------------------------

/-- Error object carried by a failed task history event. -/
structure TaskErr where
  message : String
deriving DecidableEq

/-- Event of a task history entry; error is tested for truthiness. -/
structure TaskEvent where
  error : Option TaskErr
deriving DecidableEq

/-- Entry of task.history. -/
structure HistEntry where
  event : TaskEvent
deriving DecidableEq

/-- Task record returned by cnapi.getTask. -/
structure CnapiTask where
  status : String
  history : List HistEntry
deriving DecidableEq

/-- Response of one cnapi.getTask call: either the callback error or a
task record. -/
inductive TaskQueryRes : Type where
  | qerr (re : RemoteErr)
  | qtask (t : CnapiTask)
deriving DecidableEq

/-- Outcome of one whole poll loop: callback with no error (succeeded),
callback with an error (failed), or a thrown exception that never reaches
the callback (crash). -/
inductive PollResult : Type where
  | crash
  | failed (e : SdcErr)
  | succeeded

/-- Message of the UpdateError produced when a polled task reports status
failure: Task (id) failed, extended with the error message of the first
history event when that event carries one. -/
def taskFailureMsg (taskid : String) (h : HistEntry) : String :=
  "Task " ++ taskid ++ " failed" ++
    (match h.event.error with
     | some er => " with error: " ++ er.message
     | none => "")

/-- Message of the UpdateError produced when the task poll budget is
exhausted. -/
def taskTimeoutMsg (taskid : String) : String :=
  "Timeout(5m) waiting for task " ++ taskid

/-- One poll attempt of _waitTask, given the getTask response: some
terminal outcome, or none when the loop would schedule another attempt.
A query error is wrapped as SDCClientError; status failure fails with an
UpdateError built from the first history entry, and dereferences
task.history[0] without a guard, so an empty history throws (crash);
status complete succeeds; anything else is non-terminal. -/
def waitTaskStep (taskid : String) (res : TaskQueryRes) : Option PollResult :=
  match res with
  | .qerr re => some (.failed (sdcClientErrorWF re "cnapi"))
  | .qtask t =>
    if t.status = "failure" then
      match t.history with
      | [] => some .crash
      | h :: _ => some (.failed (updateError none (taskFailureMsg taskid h)))
    else if t.status = "complete" then some .succeeded
    else none

/-- The _waitTask loop. q n is the getTask response of attempt n; c is the
value of counter for the current attempt and k the remaining retry budget
(limit - counter). When the budget is exhausted on a non-terminal response
the loop fails with the Timeout(5m) UpdateError. Returns the terminal
outcome and the counter value at which the loop stopped (the number of
getTask attempts made). -/
def waitTask (taskid : String) (q : Nat → TaskQueryRes) : Nat → Nat → PollResult × Nat
  | 0, c =>
    match waitTaskStep taskid (q c) with
    | some r => (r, c)
    | none => (.failed (updateError none (taskTimeoutMsg taskid)), c)
  | k + 1, c =>
    match waitTaskStep taskid (q c) with
    | some r => (r, c)
    | none => waitTask taskid q k (c + 1)

/-- waitUntilTaskCompletes: counter starts at 1, limit is 60, so the
remaining budget of the first attempt is 59. -/
def waitUntilTaskCompletes (taskid : String) (q : Nat → TaskQueryRes) : PollResult × Nat :=
  waitTask taskid q 59 1

-- ---------------------------------------------------------------------------
-- Agent-list poll loop: waitUntilAgentsChange
-- ---------------------------------------------------------------------------

/-- Agent entry of server.agents as returned by cnapi.getServer. -/
structure SrvAgent where
  name : String
  image_uuid : String
deriving DecidableEq

/-- Server record returned by cnapi.getServer. -/
structure Server where
  agents : List SrvAgent
deriving DecidableEq

/-- Response of one cnapi.getServer call. -/
inductive ServerQueryRes : Type where
  | qerr (re : RemoteErr)
  | qserver (s : Server)
deriving DecidableEq

/-- Message of the UpdateError produced when the agent poll budget is
exhausted. -/
def agentTimeoutMsg (server_uuid : String) : String :=
  "Timeout(5m) waiting for cn-agent update on server " ++ server_uuid

/-- One poll attempt of _waitServer: the source filters server.agents for
the entry named cn-agent and reads image_uuid of the first match without
checking that a match exists, so a server whose agents list has no
cn-agent entry makes the step throw (crash) instead of calling back. -/
def waitServerStep (image_uuid : String) (res : ServerQueryRes) : Option PollResult :=
  match res with
  | .qerr re => some (.failed (sdcClientErrorWF re "cnapi"))
  | .qserver s =>
    match (s.agents.filter (fun a => a.name == "cn-agent")).head? with
    | none => some .crash
    | some theAgent =>
      if theAgent.image_uuid = image_uuid then some .succeeded
      else none

/-- The _waitServer loop, with the same counter/budget convention as
waitTask. image_uuid is the target image of the change being applied. -/
def waitServer (server_uuid image_uuid : String) (q : Nat → ServerQueryRes) :
    Nat → Nat → PollResult × Nat
  | 0, c =>
    match waitServerStep image_uuid (q c) with
    | some r => (r, c)
    | none => (.failed (updateError none (agentTimeoutMsg server_uuid)), c)
  | k + 1, c =>
    match waitServerStep image_uuid (q c) with
    | some r => (r, c)
    | none => waitServer server_uuid image_uuid q k (c + 1)

/-- waitUntilAgentsChange: counter starts at 1, limit is 60. -/
def waitUntilAgentsChange (server_uuid image_uuid : String)
    (q : Nat → ServerQueryRes) : PollResult × Nat :=
  waitServer server_uuid image_uuid q 59 1

/-- Non-terminal getTask response: a task whose status is neither failure
nor complete (the branch that schedules another attempt). -/
def taskPending (r : TaskQueryRes) : Bool :=
  match r with
  | .qtask t => !(t.status == "failure") && !(t.status == "complete")
  | .qerr _ => false

/-- Non-terminal getServer response: a server whose cn-agent entry exists
but still reports an image other than the target. -/
def agentPending (image_uuid : String) (r : ServerQueryRes) : Bool :=
  match r with
  | .qserver s =>
    match (s.agents.filter (fun a => a.name == "cn-agent")).head? with
    | some a => !(a.image_uuid == image_uuid)
    | none => false
  | .qerr _ => false

-- ---------------------------------------------------------------------------
-- Semver gate on the co-located cn-agent version
-- ---------------------------------------------------------------------------

/-- Semantic version triple. The version strings the gate compares are
modelled in the plain numeric major.minor.patch fragment; on such a string
v, semver.satisfies(x, v) treats v as the exact range =v and holds exactly
when x = v, and semver.ltr(x, v) holds exactly when x < v in semver
order. -/
structure SemVer where
  major : Nat
  minor : Nat
  patch : Nat
deriving DecidableEq

/-- Split of a character list on a one-character separator, the behavior
of the JavaScript String.split call the source uses (kept structural on
the character data so the kernel can evaluate it). -/
def jsSplit (sep : Char) : List Char → List (List Char)
  | [] => [[]]
  | c :: rest =>
    if c = sep then [] :: jsSplit sep rest
    else
      match jsSplit sep rest with
      | x :: xs => (c :: x) :: xs
      | [] => [[c]]

/-- Digit accumulation for a numeric version field. -/
def charsToNatAux : List Char → Nat → Option Nat
  | [], acc => some acc
  | c :: rest, acc =>
    if c.isDigit then charsToNatAux rest (acc * 10 + (c.toNat - 48)) else none

/-- Numeric value of a non-empty all-digit character list. -/
def charsToNat? (l : List Char) : Option Nat :=
  match l with
  | [] => none
  | _ => charsToNatAux l 0

/-- Lexicographic character comparison, the behavior of the JavaScript
relational operator on strings (code-unit order agrees with code-point
order on the ASCII data compared here). -/
def jsStrLt : List Char → List Char → Bool
  | [], [] => false
  | [], _ :: _ => true
  | _ :: _, [] => false
  | a :: as, b :: bs =>
    if a.toNat < b.toNat then true
    else if b.toNat < a.toNat then false
    else jsStrLt as bs

/-- Parse of a plain numeric major.minor.patch version string. Version
strings outside this fragment (ranges, prerelease tags, non-semver strings
such as timestamps) exercise semver range semantics that this embedding
does not cover; the functions below return none for them and every theorem
stays inside the parsed fragment. -/
def parseTriple (s : String) : Option SemVer :=
  match jsSplit '.' s.data with
  | [a, b, c] =>
    match charsToNat? a, charsToNat? b, charsToNat? c with
    | some x, some y, some z => some ⟨x, y, z⟩
    | _, _, _ => none
  | _ => none

/-- Strict semver order on triples. -/
def semverLt (a b : SemVer) : Bool :=
  decide (a.major < b.major) ||
    (decide (a.major = b.major) &&
      (decide (a.minor < b.minor) ||
        (decide (a.minor = b.minor) && decide (a.patch < b.patch))))

/-- Version 1.4.0, the minimal cn-agent version hardcoded in the gate. -/
def v140 : SemVer := ⟨1, 4, 0⟩

/-- The version gate of upAgent on a parsed triple:
semver.satisfies(1.4.0, v) is equality and semver.ltr(1.4.0, v) is
1.4.0 < v, so the gate passes exactly when v is 1.4.0 or newer. -/
def cnAgentVersionOK (v : SemVer) : Bool :=
  decide (v140 = v) || semverLt v140 v

-- ---------------------------------------------------------------------------
-- The upAgent worker and the per-change / per-plan drivers
-- ---------------------------------------------------------------------------

/-- Image record of a change (only its uuid is read by this procedure). -/
structure ChangeImage where
  uuid : String
deriving DecidableEq

/-- Instance record as listed by sdcadm.listInsts: the service name, the
hosting server, the reported version string (absent models an undefined
version) and the resolved image (absent models a change instance with no
image). -/
structure Inst where
  service : String
  server : String
  version : Option String
  image : Option ChangeImage
deriving DecidableEq

/-- Change record: the target image and the list of target instances. -/
structure Change where
  image : ChangeImage
  insts : List Inst
deriving DecidableEq

/-- Response of the cnapi install-agent dispatch call for one server:
either the callback error or a task record whose id keys the poll. -/
inductive DispatchRes : Type where
  | derr (re : RemoteErr)
  | dok (taskid : String)
deriving DecidableEq

/-- Environment of remote collaborator responses for one execute run:
the listInsts result, the install-agent dispatch response per server, and
the per-attempt poll responses keyed by task id and by server uuid. -/
structure Env where
  listInsts : Except RemoteErr (List Inst)
  dispatch : String → DispatchRes
  taskQueries : String → Nat → TaskQueryRes
  serverQueries : String → Nat → ServerQueryRes

/-- Termination of one upAgent worker invocation: either the worker (or
its poll) threw, or it invoked its queue callback, having appended
newErrs to the shared errs collector and passed cbErr to the callback.
The queue was given no per-task completion callback, so cbErr is
discarded by vasync. -/
inductive WorkerRes : Type where
  | crashed
  | completed (newErrs : List SdcErr) (cbErr : Option SdcErr)

/-- Result of one upAgent worker invocation: whether the install-agent
dispatch call was made, and how the invocation terminated. -/
structure WorkerOut where
  dispatched : Bool
  res : WorkerRes

/-- Resolution of the co-located cn-agent instance for a target instance:
the instance itself when the change is for cn-agent, else the first
cn-agent instance listed for the same server. -/
def resolveCnAgentInst (arg : Inst) (cnAgentInsts : List Inst) : Option Inst :=
  if arg.service = "cn-agent" then some arg
  else (cnAgentInsts.filter (fun i => i.server == arg.server)).head?

/-- Message of the UpdateError recorded when the change carries no image
for an instance. -/
def unknownImageMsg (service server : String) : String :=
  "Unknown image for " ++ service ++ " in server " ++ server

/-- Message of the UpdateError recorded when the co-located cn-agent
reports no version. -/
def unknownVersionMsg (server : String) : String :=
  "Unknown version for cn-agent in server " ++ server

/-- Message of the UpdateError recorded when the co-located cn-agent
version fails the 1.4.0 gate. -/
def invalidVersionMsg (server version : String) : String :=
  "Invalid cn-agent version in server " ++ server ++
    ". Minimal version to run agent updates is 1.4.0 (current version is " ++
    version ++ ")"

/-- The upAgent worker for one target instance. Mirrors the source order:
resolve the co-located cn-agent instance, record an error and call back if
the image is missing (before any dereference of the resolution), crash if
the resolution found no instance (undefined.version), record an error and
call back if its version is missing or fails the 1.4.0 gate, otherwise
dispatch the install-agent call; a dispatch error is passed to the queue
callback (not recorded in errs), a poll failure is recorded in errs.
Returns none when the version string is outside the parsed semver
fragment. -/
def upAgent (change : Change) (cnAgentInsts : List Inst) (env : Env)
    (arg : Inst) : Option WorkerOut :=
  let cnAgentInstance? := resolveCnAgentInst arg cnAgentInsts
  match arg.image with
  | none =>
    some ⟨false, .completed [updateError none (unknownImageMsg arg.service arg.server)] none⟩
  | some _ =>
    match cnAgentInstance? with
    | none => some ⟨false, .crashed⟩
    | some cna =>
      match cna.version with
      | none =>
        some ⟨false, .completed [updateError none (unknownVersionMsg arg.server)] none⟩
      | some vs =>
        match parseTriple vs with
        | none => none
        | some v =>
          if cnAgentVersionOK v then
            match env.dispatch arg.server with
            | .derr re =>
              some ⟨true, .completed [] (some (sdcClientErrorWF re "cnapi"))⟩
            | .dok taskid =>
              let pr :=
                if arg.service = "cn-agent" then
                  waitUntilAgentsChange arg.server change.image.uuid
                    (env.serverQueries arg.server)
                else
                  waitUntilTaskCompletes taskid (env.taskQueries taskid)
              match pr.1 with
              | .crash => some ⟨true, .crashed⟩
              | .failed e => some ⟨true, .completed [e] none⟩
              | .succeeded => some ⟨true, .completed [] none⟩
          else
            some ⟨false, .completed [updateError none (invalidVersionMsg arg.server vs)] none⟩

/-- Accumulated state of the fan-out over the instances of one change:
the shared errs collector, the servers for which a dispatch call was
made, and whether some worker threw. -/
structure FanoutAcc where
  errs : List SdcErr
  dispatched : List String
  crashed : Bool

/-- Fan-out of upAgent over the instances of a change. The vasync queue
runs workers with bounded concurrency but every worker that completes
does so by calling its callback, whose arguments are discarded (the queue
was pushed without per-task callbacks); the collector order below is the
order failures are recorded in. A thrown exception stops the run (the
process dies before the queue end event). Returns none if some instance
falls outside the modelled semver fragment. -/
def runFanout (change : Change) (cnAgentInsts : List Inst) (env : Env) :
    List Inst → FanoutAcc → Option FanoutAcc
  | [], acc => some acc
  | i :: rest, acc =>
    match upAgent change cnAgentInsts env i with
    | none => none
    | some w =>
      let acc' : FanoutAcc :=
        ⟨acc.errs, acc.dispatched ++ (if w.dispatched then [i.server] else []), acc.crashed⟩
      match w.res with
      | .crashed => some ⟨acc'.errs, acc'.dispatched, true⟩
      | .completed newErrs _cbErr =>
        runFanout change cnAgentInsts env rest ⟨acc'.errs ++ newErrs, acc'.dispatched, false⟩

/-- Error delivered to the per-change callback: either the raw listInsts
error passed through by checkMinCNAPIVersion, or an error of the sdcadm
taxonomy. -/
inductive ChangeErr : Type where
  | raw (re : RemoteErr)
  | sdc (e : SdcErr)

/-- Outcome of updateAgent for one change: the error its pipeline callback
received (none on success), the servers dispatched to, and whether the run
died on a thrown exception (in which case no callback was invoked). -/
structure ChangeRes where
  err : Option ChangeErr
  dispatched : List String
  crashed : Bool

/-- JavaScript-style array indexing: a negative index (as produced by
parts.length - 2 on a short array) reads undefined. -/
def jsIndex (l : List a) (i : Int) : Option a :=
  if i < 0 then none else l.get? i.toNat

/-- Message of the UpdateError produced by checkMinCNAPIVersion (the
missing space before the second quoted date reproduces the source format
string). -/
def cnapiTooOldMsg (curImg : String) : String :=
  "image for cnapi is too old for `sdcadm update agents` (min image build " ++
    "date is \"" ++ UpdateAgentV1.MIN_CNAPI_VERSION ++
    "\" current image build date is\"" ++ curImg ++ "\")"

/-- The updateAgent pipeline for one change: checkMinCNAPIVersion runs
first — it lists the cnapi and cn-agent instances, reads the version of
the first cnapi instance (crashing when there is none or it has no
version string, as the source dereference would), takes the second-to-last
dash-separated field as the image build timestamp and fails with an
UpdateError when it is lexicographically older than MIN_CNAPI_VERSION; a
string compared against undefined is never older. Only when that step
succeeds does updateAgentOnServers fan the instances out; its queue end
handler calls back with a MultiError of the collector exactly when the
collector is non-empty. -/
def updateAgent (env : Env) (change : Change) : Option ChangeRes :=
  match env.listInsts with
  | .error re => some ⟨some (.raw re), [], false⟩
  | .ok instances =>
    let cnapiInsts := instances.filter (fun i => i.service == "cnapi")
    let cnAgentInsts := instances.filter (fun i => i.service == "cn-agent")
    match cnapiInsts.head? with
    | none => some ⟨none, [], true⟩
    | some c0 =>
      match c0.version with
      | none => some ⟨none, [], true⟩
      | some ver =>
        let parts := (jsSplit '-' ver.data).map String.mk
        let goOn : Option ChangeRes :=
          match runFanout change cnAgentInsts env change.insts ⟨[], [], false⟩ with
          | none => none
          | some acc =>
            if acc.crashed then some ⟨none, acc.dispatched, true⟩
            else if acc.errs.isEmpty then some ⟨none, acc.dispatched, false⟩
            else some ⟨some (.sdc (multiError acc.errs)), acc.dispatched, false⟩
        match jsIndex parts ((parts.length : Int) - 2) with
        | none => goOn
        | some curImg =>
          if jsStrLt curImg.data UpdateAgentV1.MIN_CNAPI_VERSION.data then
            some ⟨some (.sdc (updateError none (cnapiTooOldMsg curImg))), [], false⟩
          else goOn

/-- Outcome of the whole execute call: the error the execute callback
received (none on success), the per-change outcomes of the changes that
were processed, in plan order, and whether the run died on a thrown
exception. -/
structure PlanRes where
  err : Option ChangeErr
  perChange : List ChangeRes
  crashed : Bool

/-- Modelled from the spec: vasync.forEachPipeline (not part of this
repository) processes its inputs one at a time, strictly in order, each
call of func draining fully before the next input starts, stops at the
first error, and invokes its callback exactly once with that first error,
or with success after the last input succeeded. uaExecute feeds
self.changes through it with updateAgent as func. -/
def uaExecute (env : Env) : List Change → Option PlanRes
  | [] => some ⟨none, [], false⟩
  | ch :: rest =>
    match updateAgent env ch with
    | none => none
    | some cr =>
      if cr.crashed then some ⟨none, [cr], true⟩
      else
        match cr.err with
        | some e => some ⟨some e, [cr], false⟩
        | none =>
          match uaExecute env rest with
          | none => none
          | some pr => some ⟨pr.err, cr :: pr.perChange, pr.crashed⟩

-- ---------------------------------------------------------------------------
-- Bounded work queue (vasync.queue), modelled from the spec
-- ---------------------------------------------------------------------------

/-- State of the bounded work queue over items of type a: the items still
waiting in line (in push order), the worker invocations currently in
flight, and the items whose invocation has completed. -/
structure QState (a : Type) where
  waiting : List a
  running : List a
  finished : List a

/-- Modelled from the spec: the bounded work queue (vasync.queue, not part
of this repository) starts a waiting item only when fewer than C worker
invocations are in flight, always taking the head of the waiting line
(FIFO), and completes in-flight items in any order without aborting on
individual failures. -/
inductive QStep (C : Nat) : QState a → QState a → Prop where
  | start (x : a) (w r f : List a) (h : r.length < C) :
      QStep C ⟨x :: w, r, f⟩ ⟨w, x :: r, f⟩
  | finish (r1 r2 : List a) (x : a) (w f : List a) :
      QStep C ⟨w, r1 ++ x :: r2, f⟩ ⟨w, r1 ++ r2, x :: f⟩

/-- Initial queue state: every pushed item waiting, none started. -/
def initQ (items : List a) : QState a :=
  ⟨items, [], []⟩

/-- States reachable by the queue from an initial state. -/
inductive QReach (C : Nat) (init : QState a) : QState a → Prop where
  | refl : QReach C init init
  | step {s s' : QState a} : QReach C init s → QStep C s s' → QReach C init s'

-- ---------------------------------------------------------------------------
-- Containment of one string in another (used to state that a message
-- embeds a name, code or error text)
-- ---------------------------------------------------------------------------

/-- Containment of sub in s, as infix of the character data. -/
def StrContains (s sub : String) : Prop :=
  sub.data <:+: s.data

-- ---------------------------------------------------------------------------
-- Concrete fixtures used by witnesses and counterexamples
-- ---------------------------------------------------------------------------

/-- Well-formed remote error fixture. -/
def re0 : RemoteErr :=
  ⟨"no such instance", some "ResourceNotFound", [⟨"uuid", "Missing", some "uuid is needed"⟩]⟩

/-- Cause whose body carries a string message but a non-string code. -/
def nonStringCodeCause : CCause :=
  ⟨⟨some .vother, some (.vstr "boom"), none⟩⟩

/-- Target image fixture. -/
def img1 : ChangeImage := ⟨"img-1"⟩

/-- Instance of the vm-agent service on server srvA, with an image and a
gate-passing co-located cn-agent (cnA below). -/
def instA : Inst := ⟨"vm-agent", "srvA", some "1.5.0", some img1⟩

/-- Listed cn-agent instance on server srvA. -/
def cnA : Inst := ⟨"cn-agent", "srvA", some "1.5.0", none⟩

/-- Listed cnapi instance with a build date newer than the minimum. -/
def cnapiNew : Inst :=
  ⟨"cnapi", "headnode", some "release-20150501-20150501T000000Z-g1234567", none⟩

/-- Listed cnapi instance with a build date older than the minimum. -/
def cnapiOld : Inst :=
  ⟨"cnapi", "headnode", some "release-20150101-20150101T000000Z-g1234567", none⟩

/-- Change fixture targeting instA. -/
def change1 : Change := ⟨img1, [instA]⟩

/-- Environment where every install-agent dispatch fails with a client
error and polls never resolve. -/
def env1 : Env :=
  ⟨.ok [cnapiNew, cnA],
   fun _ => .derr re0,
   fun _ _ => .qtask ⟨"pending", []⟩,
   fun _ _ => .qserver ⟨[⟨"cn-agent", "img-0"⟩]⟩⟩

/-- Environment whose cnapi instance is older than the minimum build. -/
def env2 : Env :=
  ⟨.ok [cnapiOld, cnA],
   fun _ => .dok "task-1",
   fun _ _ => .qtask ⟨"complete", []⟩,
   fun _ _ => .qserver ⟨[⟨"cn-agent", "img-1"⟩]⟩⟩

/-- Instance of the cn-agent service on node nodeB reporting version
1.2.0, below the 1.4.0 gate. -/
def instB : Inst := ⟨"cn-agent", "nodeB", some "1.2.0", some img1⟩

/-- Environment whose instance listing itself fails. -/
def envErr : Env :=
  ⟨.error re0,
   fun _ => .dok "task-1",
   fun _ _ => .qtask ⟨"complete", []⟩,
   fun _ _ => .qserver ⟨[⟨"cn-agent", "img-1"⟩]⟩⟩

end Sdcadm

-- ---------------------------------------------------------------------------
-- Theorems
-- ---------------------------------------------------------------------------

namespace Sdcadm

theorem strContains_of_eq (s sub p q : String) (h : s.data = p.data ++ sub.data ++ q.data) :
    StrContains s sub :=
  ⟨p.data, q.data, h.symm⟩

/-- Shape of every successfully constructed SDCClientError. -/
theorem sdcClientError_ok (b : CCause) (n : String) (e : SdcErr)
    (h : sdcClientError b n = .ok e) :
    e.code = "SDCClient" ∧ e.exitStatus = 1 ∧ e.cause = some (.inl b) := by
  unfold sdcClientError at h
  split at h
  · exact absurd h (by simp)
  all_goals
    split at h
    · simp only [Except.ok.injEq] at h
      subst h
      exact ⟨rfl, rfl, rfl⟩
    · exact absurd h (by simp)

/-- On a well-formed remote error the SDCClientError assertions pass and
the construction yields the wrapped error value. -/
theorem sdcClientError_reToBody (re : RemoteErr) (n : String) :
    sdcClientError (reToBody re) n = .ok (sdcClientErrorWF re n) := by
  cases re with
  | mk m c errs =>
    cases c with
    | none => simp [sdcClientError, reToBody, sdcClientErrorWF, String.append_assoc]
    | some cv =>
      by_cases hc : cv = "" <;>
        simp [sdcClientError, reToBody, sdcClientErrorWF, hc, String.append_assoc]

/-- C3 counterexample: the claim gives InternalError the code Internal,
but the constructor sets the code to the string InternalError. -/
theorem internalError_code_cex : (internalError "boom" none).code ≠ "Internal" := by
  simp [internalError, SdcErr.code]

/-- C3 (amended): every constructed failure value carries the promised
machine-readable code and exitStatus — InternalError has code
InternalError (not Internal) and exitStatus 1, UsageError Usage and 2,
UpdateError Update and 2, SDCClientError SDCClient and 1, MultiError
MultiError and 1 — with a string message, an optional wrapped cause, and
for MultiError the cause is the first child. -/
theorem error_taxonomy_codes (m n : String) (c : Option (CCause ⊕ SdcErr))
    (b : CCause) (e e0 : SdcErr) (rest : List SdcErr) :
    (internalError m c).code = "InternalError" ∧ (internalError m c).exitStatus = 1 ∧
    (internalError m c).message = m ∧ (internalError m c).cause = c ∧
    (usageError c m).code = "Usage" ∧ (usageError c m).exitStatus = 2 ∧
    (usageError c m).message = m ∧ (usageError c m).cause = c ∧
    (updateError c m).code = "Update" ∧ (updateError c m).exitStatus = 2 ∧
    (updateError c m).message = m ∧ (updateError c m).cause = c ∧
    (sdcClientError b n = .ok e →
      e.code = "SDCClient" ∧ e.exitStatus = 1 ∧ e.cause = some (.inl b)) ∧
    (multiError (e0 :: rest)).code = "MultiError" ∧
    (multiError (e0 :: rest)).exitStatus = 1 ∧
    (multiError (e0 :: rest)).cause = some (.inr e0) := by
  refine ⟨rfl, rfl, rfl, rfl, rfl, rfl, rfl, rfl, rfl, rfl, rfl, rfl,
    fun h => sdcClientError_ok b n e h, rfl, rfl, rfl⟩

/-- Count of newlines in the concatenated error lines: at least one line
per entry. -/
theorem errLines_count (l : List ErrEntry) : l.length ≤ (errLines l).data.count '\n' := by
  induction l with
  | nil => simp [errLines]
  | cons e rest ih =>
    show (e :: rest).length ≤ (errEntryLine e ++ errLines rest).data.count '\n'
    rw [String.data_append, List.count_append]
    have h1 : 1 ≤ (errEntryLine e).data.count '\n' := by
      unfold errEntryLine
      rw [String.data_append]
      rw [List.count_append]
      have : (("\n    " ++ e.field ++ ": " ++ e.code)).data.count '\n' ≥ 1 := by
        rw [String.data_append, String.data_append, String.data_append]
        rw [List.count_append, List.count_append, List.count_append]
        have : (("\n    ").data).count '\n' = 1 := by decide
        omega
      omega
    simp only [List.length_cons]
    omega

/-- C8 counterexample: a cause whose body carries the string message boom
but a non-string code makes the construction fail on the
assert.optionalString precondition, although body.message is a string. -/
theorem sdcClientError_nonstring_code_cex :
    nonStringCodeCause.body.message = some (.vstr "boom") ∧
    sdcClientError nonStringCodeCause "cnapi" =
      .error "cause.body.code (string) is required" :=
  ⟨rfl, rfl⟩

/-- C8 (amended): constructing an SDCClientError from a cause b2 whose
body lacks a string message field fails at construction time with an
assertion error (never a degraded ok value), and given a cause b with a
string body.message whose body.code is absent or a string, construction
succeeds and the resulting message embeds the client name, the remote
code when present and non-empty, the remote message, and at least one
line per entry of body.errors. -/
theorem sdcClientError_construction (b b2 : CCause) (n n2 m : String)
    (hm : b.body.message = some (.vstr m))
    (hc : b.body.code = none ∨ ∃ c, b.body.code = some (.vstr c))
    (hbad : ∀ m2, b2.body.message ≠ some (.vstr m2)) :
    (∃ amsg, sdcClientError b2 n2 = .error amsg) ∧
    ∃ e, sdcClientError b n = .ok e ∧ e.code = "SDCClient" ∧ e.exitStatus = 1 ∧
      e.cause = some (.inl b) ∧ StrContains e.message n ∧ StrContains e.message m ∧
      (∀ c, b.body.code = some (.vstr c) → c ≠ "" → StrContains e.message c) ∧
      (b.body.errors.getD []).length ≤ e.message.data.count '\n' := by
  constructor
  · obtain ⟨⟨cd, ms, ers⟩⟩ := b2
    cases cd with
    | some jv =>
      cases jv with
      | vother => exact ⟨_, rfl⟩
      | vstr c =>
        cases ms with
        | none => exact ⟨_, rfl⟩
        | some jm =>
          cases jm with
          | vstr s => exact absurd rfl (hbad s)
          | vother => exact ⟨_, rfl⟩
    | none =>
      cases ms with
      | none => exact ⟨_, rfl⟩
      | some jm =>
        cases jm with
        | vstr s => exact absurd rfl (hbad s)
        | vother => exact ⟨_, rfl⟩
  rcases hc with hnone | ⟨c, hcode⟩
  · refine ⟨.mk "SDCClient"
      (n ++ " client error" ++ "" ++ ": " ++ (m ++ errLines (b.body.errors.getD [])))
      1 (some (.inl b)), ?_, rfl, rfl, rfl, ?_, ?_, ?_, ?_⟩
    · simp [sdcClientError, hnone, hm]
    · exact ⟨[], (" client error").data ++ ("").data ++ (": ").data ++ m.data ++
        (errLines (b.body.errors.getD [])).data,
        by simp [SdcErr.message, String.data_append, List.append_assoc]⟩
    · exact ⟨n.data ++ (" client error").data ++ ("").data ++ (": ").data,
        (errLines (b.body.errors.getD [])).data,
        by simp [SdcErr.message, String.data_append, List.append_assoc]⟩
    · intro c hcd
      rw [hnone] at hcd
      exact absurd hcd (by simp)
    · have hl := errLines_count (b.body.errors.getD [])
      simp only [SdcErr.message, String.data_append, List.count_append]
      omega
  · by_cases hce : c = ""
    · subst hce
      refine ⟨.mk "SDCClient"
        (n ++ " client error" ++ "" ++ ": " ++ (m ++ errLines (b.body.errors.getD [])))
        1 (some (.inl b)), ?_, rfl, rfl, rfl, ?_, ?_, ?_, ?_⟩
      · simp [sdcClientError, hcode, hm]
      · exact ⟨[], (" client error").data ++ ("").data ++ (": ").data ++ m.data ++
          (errLines (b.body.errors.getD [])).data,
          by simp [SdcErr.message, String.data_append, List.append_assoc]⟩
      · exact ⟨n.data ++ (" client error").data ++ ("").data ++ (": ").data,
          (errLines (b.body.errors.getD [])).data,
          by simp [SdcErr.message, String.data_append, List.append_assoc]⟩
      · intro c2 hcd hne
        rw [hcode] at hcd
        simp only [Option.some.injEq, JsVal.vstr.injEq] at hcd
        exact absurd hcd.symm hne
      · have hl := errLines_count (b.body.errors.getD [])
        simp only [SdcErr.message, String.data_append, List.count_append]
        omega
    · refine ⟨.mk "SDCClient"
        (n ++ " client error" ++ (" (" ++ c ++ ")") ++ ": " ++
          (m ++ errLines (b.body.errors.getD [])))
        1 (some (.inl b)), ?_, rfl, rfl, rfl, ?_, ?_, ?_, ?_⟩
      · simp [sdcClientError, hcode, hm, hce]
      · exact ⟨[], (" client error").data ++ (" (").data ++ c.data ++ (")").data ++
          (": ").data ++ m.data ++ (errLines (b.body.errors.getD [])).data,
          by simp [SdcErr.message, String.data_append, List.append_assoc]⟩
      · exact ⟨n.data ++ (" client error").data ++ (" (").data ++ c.data ++ (")").data ++
          (": ").data, (errLines (b.body.errors.getD [])).data,
          by simp [SdcErr.message, String.data_append, List.append_assoc]⟩
      · intro c2 hcd hne
        rw [hcode] at hcd
        simp only [Option.some.injEq, JsVal.vstr.injEq] at hcd
        subst hcd
        exact ⟨n.data ++ (" client error").data ++ (" (").data,
          (")").data ++ (": ").data ++ m.data ++ (errLines (b.body.errors.getD [])).data,
          by simp [SdcErr.message, String.data_append, List.append_assoc]⟩
      · have hl := errLines_count (b.body.errors.getD [])
        simp only [SdcErr.message, String.data_append, List.count_append]
        omega

theorem sdcClientError_construction_witness :
    (∃ amsg, sdcClientError ⟨⟨none, none, none⟩⟩ "vmapi" = .error amsg) ∧
    (reToBody re0).body.message = some (.vstr "no such instance") ∧
    ((reToBody re0).body.code = none ∨
      ∃ c, (reToBody re0).body.code = some (.vstr c)) ∧
    (∀ m2, (⟨⟨none, none, none⟩⟩ : CCause).body.message ≠ some (.vstr m2)) ∧
    ∃ e, sdcClientError (reToBody re0) "cnapi" = .ok e ∧ e.code = "SDCClient" ∧
      e.exitStatus = 1 ∧ e.cause = some (.inl (reToBody re0)) ∧
      StrContains e.message "cnapi" ∧ StrContains e.message "no such instance" ∧
      (∀ c, (reToBody re0).body.code = some (.vstr c) → c ≠ "" →
        StrContains e.message c) ∧
      ((reToBody re0).body.errors.getD []).length ≤ e.message.data.count '\n' := by
  have h := sdcClientError_construction (reToBody re0) ⟨⟨none, none, none⟩⟩
    "cnapi" "vmapi" "no such instance" rfl (Or.inr ⟨"ResourceNotFound", rfl⟩)
    (fun m2 hx => Option.noConfusion hx)
  exact ⟨h.1, rfl, Or.inr ⟨"ResourceNotFound", rfl⟩,
    (fun m2 hx => Option.noConfusion hx), h.2⟩

theorem error_taxonomy_codes_witness :
    sdcClientError (reToBody re0) "cnapi" = .ok (sdcClientErrorWF re0 "cnapi") ∧
    (internalError "boom" none).code = "InternalError" ∧
    (sdcClientErrorWF re0 "cnapi").code = "SDCClient" ∧
    (multiError [updateError none "a", updateError none "b"]).cause =
      some (.inr (updateError none "a")) := by
  have h := error_taxonomy_codes "boom" "cnapi" none (reToBody re0)
    (sdcClientErrorWF re0 "cnapi") (updateError none "a") [updateError none "b"]
  exact ⟨sdcClientError_reToBody re0 "cnapi", h.1,
    (h.2.2.2.2.2.2.2.2.2.2.2.2.1 (sdcClientError_reToBody re0 "cnapi")).1,
    h.2.2.2.2.2.2.2.2.2.2.2.2.2.2.2⟩

-- ---------------------------------------------------------------------------
-- Poll loop lemmas
-- ---------------------------------------------------------------------------

theorem taskPending_step (taskid : String) (r : TaskQueryRes)
    (h : taskPending r = true) : waitTaskStep taskid r = none := by
  cases r with
  | qerr re => simp [taskPending] at h
  | qtask t =>
    simp [taskPending] at h
    simp [waitTaskStep, h.1, h.2]

theorem agentPending_step (image_uuid : String) (r : ServerQueryRes)
    (h : agentPending image_uuid r = true) : waitServerStep image_uuid r = none := by
  cases r with
  | qerr re => simp [agentPending] at h
  | qserver s =>
    simp only [agentPending] at h
    cases hh : (s.agents.filter (fun a => a.name == "cn-agent")).head? with
    | none => rw [hh] at h; simp at h
    | some a =>
      rw [hh] at h
      simp at h
      simp [waitServerStep, hh, h]

theorem waitTask_counter_le (taskid : String) (q : Nat → TaskQueryRes) :
    ∀ k c, (waitTask taskid q k c).2 ≤ c + k := by
  intro k
  induction k with
  | zero =>
    intro c
    simp only [waitTask]
    split <;> simp
  | succ k ih =>
    intro c
    simp only [waitTask]
    split
    · simp
    · exact le_trans (ih (c + 1)) (by omega)

theorem waitServer_counter_le (server_uuid image_uuid : String)
    (q : Nat → ServerQueryRes) :
    ∀ k c, (waitServer server_uuid image_uuid q k c).2 ≤ c + k := by
  intro k
  induction k with
  | zero =>
    intro c
    simp only [waitServer]
    split <;> simp
  | succ k ih =>
    intro c
    simp only [waitServer]
    split
    · simp
    · exact le_trans (ih (c + 1)) (by omega)

theorem waitTask_timeout (taskid : String) (q : Nat → TaskQueryRes) :
    ∀ k c, (∀ n, c ≤ n → n ≤ c + k → taskPending (q n) = true) →
      waitTask taskid q k c = (.failed (updateError none (taskTimeoutMsg taskid)), c + k) := by
  intro k
  induction k with
  | zero =>
    intro c hp
    simp only [waitTask]
    rw [taskPending_step taskid (q c) (hp c (le_refl c) (by omega))]
    simp
  | succ k ih =>
    intro c hp
    simp only [waitTask]
    rw [taskPending_step taskid (q c) (hp c (le_refl c) (by omega))]
    rw [ih (c + 1) (fun n h1 h2 => hp n (by omega) (by omega))]
    have h3 : c + 1 + k = c + (k + 1) := by omega
    rw [h3]

theorem waitServer_timeout (server_uuid image_uuid : String) (q : Nat → ServerQueryRes) :
    ∀ k c, (∀ n, c ≤ n → n ≤ c + k → agentPending image_uuid (q n) = true) →
      waitServer server_uuid image_uuid q k c =
        (.failed (updateError none (agentTimeoutMsg server_uuid)), c + k) := by
  intro k
  induction k with
  | zero =>
    intro c hp
    simp only [waitServer]
    rw [agentPending_step image_uuid (q c) (hp c (le_refl c) (by omega))]
    simp
  | succ k ih =>
    intro c hp
    simp only [waitServer]
    rw [agentPending_step image_uuid (q c) (hp c (le_refl c) (by omega))]
    rw [ih (c + 1) (fun n h1 h2 => hp n (by omega) (by omega))]
    have h3 : c + 1 + k = c + (k + 1) := by omega
    rw [h3]

/-- Strings starting with the literal Task prefix differ from strings
starting with the timeout prefix. -/
theorem taskMsg_ne (a b : String) :
    "Task " ++ a ≠ "Timeout(5m) waiting for task " ++ b := by
  intro h
  have hd : ("Task ").data ++ a.data = ("Timeout(5m) waiting for task ").data ++ b.data := by
    have h2 := congrArg String.data h
    rwa [String.data_append, String.data_append] at h2
  have h5 := congrArg (List.take 5) hd
  rw [List.take_append_of_le_length (by decide),
    List.take_append_of_le_length (by decide)] at h5
  exact absurd h5 (by decide)

/-- No single task poll attempt produces the timeout error value. -/
theorem waitTaskStep_ne_timeout (taskid : String) (r : TaskQueryRes) :
    waitTaskStep taskid r ≠ some (.failed (updateError none (taskTimeoutMsg taskid))) := by
  unfold waitTaskStep
  split
  · intro h
    simp only [Option.some.injEq, PollResult.failed.injEq] at h
    exact absurd (congrArg SdcErr.code h)
      (by simp [sdcClientErrorWF, updateError, SdcErr.code])
  · split
    · split
      · intro h
        simp at h
      · intro h
        simp only [Option.some.injEq, PollResult.failed.injEq] at h
        have hm := congrArg SdcErr.message h
        simp only [updateError, SdcErr.message] at hm
        unfold taskFailureMsg taskTimeoutMsg at hm
        rw [String.append_assoc, String.append_assoc] at hm
        exact taskMsg_ne _ _ hm
    · split
      · intro h
        simp at h
      · intro h
        simp at h

/-- No single server poll attempt produces the timeout error value. -/
theorem waitServerStep_ne_timeout (server_uuid image_uuid : String) (r : ServerQueryRes) :
    waitServerStep image_uuid r ≠
      some (.failed (updateError none (agentTimeoutMsg server_uuid))) := by
  unfold waitServerStep
  split
  · intro h
    simp only [Option.some.injEq, PollResult.failed.injEq] at h
    exact absurd (congrArg SdcErr.code h)
      (by simp [sdcClientErrorWF, updateError, SdcErr.code])
  · split
    · intro h
      simp at h
    · split
      · intro h
        simp at h
      · intro h
        simp at h

theorem waitTask_timeout_imp (taskid : String) (q : Nat → TaskQueryRes) :
    ∀ k c, (waitTask taskid q k c).1 = .failed (updateError none (taskTimeoutMsg taskid)) →
      (waitTask taskid q k c).2 = c + k := by
  intro k
  induction k with
  | zero =>
    intro c _h
    simp only [waitTask]
    split <;> simp
  | succ k ih =>
    intro c h
    simp only [waitTask] at h ⊢
    cases hs : waitTaskStep taskid (q c) with
    | none =>
      rw [hs] at h
      have h2 : (waitTask taskid q k (c + 1)).1 =
          PollResult.failed (updateError none (taskTimeoutMsg taskid)) := h
      have h3 := ih (c + 1) h2
      show (waitTask taskid q k (c + 1)).2 = c + (k + 1)
      omega
    | some r =>
      rw [hs] at h
      have h2 : r = PollResult.failed (updateError none (taskTimeoutMsg taskid)) := h
      subst h2
      exact absurd hs (waitTaskStep_ne_timeout taskid (q c))

theorem waitServer_timeout_imp (server_uuid image_uuid : String)
    (q : Nat → ServerQueryRes) :
    ∀ k c, (waitServer server_uuid image_uuid q k c).1 =
        .failed (updateError none (agentTimeoutMsg server_uuid)) →
      (waitServer server_uuid image_uuid q k c).2 = c + k := by
  intro k
  induction k with
  | zero =>
    intro c _h
    simp only [waitServer]
    split <;> simp
  | succ k ih =>
    intro c h
    simp only [waitServer] at h ⊢
    cases hs : waitServerStep image_uuid (q c) with
    | none =>
      rw [hs] at h
      have h2 : (waitServer server_uuid image_uuid q k (c + 1)).1 =
          PollResult.failed (updateError none (agentTimeoutMsg server_uuid)) := h
      have h3 := ih (c + 1) h2
      show (waitServer server_uuid image_uuid q k (c + 1)).2 = c + (k + 1)
      omega
    | some r =>
      rw [hs] at h
      have h2 : r = PollResult.failed (updateError none (agentTimeoutMsg server_uuid)) := h
      subst h2
      exact absurd hs (waitServerStep_ne_timeout server_uuid image_uuid (q c))

theorem waitTask_reach (taskid : String) (q : Nat → TaskQueryRes) :
    ∀ k c m, c ≤ m → m ≤ c + k →
      (∀ n, c ≤ n → n < m → taskPending (q n) = true) →
      waitTask taskid q k c = waitTask taskid q (k - (m - c)) m := by
  intro k
  induction k with
  | zero =>
    intro c m h1 h2 _
    have hcm : c = m := by omega
    subst hcm
    simp
  | succ k ih =>
    intro c m h1 h2 hp
    rcases Nat.eq_or_lt_of_le h1 with he | hlt
    · subst he
      simp
    · have hpc := hp c (le_refl c) hlt
      simp only [waitTask]
      rw [taskPending_step taskid (q c) hpc]
      rw [ih (c + 1) m (by omega) (by omega) (fun n a b => hp n (by omega) b)]
      have harg : k - (m - (c + 1)) = k + 1 - (m - c) := by omega
      rw [harg]

theorem waitServer_reach (server_uuid image_uuid : String) (q : Nat → ServerQueryRes) :
    ∀ k c m, c ≤ m → m ≤ c + k →
      (∀ n, c ≤ n → n < m → agentPending image_uuid (q n) = true) →
      waitServer server_uuid image_uuid q k c =
        waitServer server_uuid image_uuid q (k - (m - c)) m := by
  intro k
  induction k with
  | zero =>
    intro c m h1 h2 _
    have hcm : c = m := by omega
    subst hcm
    simp
  | succ k ih =>
    intro c m h1 h2 hp
    rcases Nat.eq_or_lt_of_le h1 with he | hlt
    · subst he
      simp
    · have hpc := hp c (le_refl c) hlt
      simp only [waitServer]
      rw [agentPending_step image_uuid (q c) hpc]
      rw [ih (c + 1) m (by omega) (by omega) (fun n a b => hp n (by omega) b)]
      have harg : k - (m - (c + 1)) = k + 1 - (m - c) := by omega
      rw [harg]

theorem waitTask_terminal (taskid : String) (q : Nat → TaskQueryRes) (m : Nat)
    (r : PollResult) (h : waitTaskStep taskid (q m) = some r) :
    ∀ k, waitTask taskid q k m = (r, m) := by
  intro k
  cases k <;> simp [waitTask, h]

theorem waitServer_terminal (server_uuid image_uuid : String)
    (q : Nat → ServerQueryRes) (m : Nat) (r : PollResult)
    (h : waitServerStep image_uuid (q m) = some r) :
    ∀ k, waitServer server_uuid image_uuid q k m = (r, m) := by
  intro k
  cases k <;> simp [waitServer, h]

/-- C4: both poll loops make at most 60 query attempts; when every
response within the budget is non-terminal they fail with the Timeout(5m)
UpdateError after exactly 60 attempts; a timeout failure only ever
happens after exactly 60 attempts; and the timeout message mentions
Timeout(5m) and the task id (resp. the server uuid) being waited on. -/
theorem poll_loops_bounded (taskid server_uuid image_uuid : String)
    (q : Nat → TaskQueryRes) (sq : Nat → ServerQueryRes) :
    (waitUntilTaskCompletes taskid q).2 ≤ 60 ∧
    ((∀ n, 1 ≤ n → n ≤ 60 → taskPending (q n) = true) →
      waitUntilTaskCompletes taskid q =
        (.failed (updateError none (taskTimeoutMsg taskid)), 60)) ∧
    ((waitUntilTaskCompletes taskid q).1 =
        .failed (updateError none (taskTimeoutMsg taskid)) →
      (waitUntilTaskCompletes taskid q).2 = 60) ∧
    StrContains (taskTimeoutMsg taskid) "Timeout(5m)" ∧
    StrContains (taskTimeoutMsg taskid) taskid ∧
    (waitUntilAgentsChange server_uuid image_uuid sq).2 ≤ 60 ∧
    ((∀ n, 1 ≤ n → n ≤ 60 → agentPending image_uuid (sq n) = true) →
      waitUntilAgentsChange server_uuid image_uuid sq =
        (.failed (updateError none (agentTimeoutMsg server_uuid)), 60)) ∧
    ((waitUntilAgentsChange server_uuid image_uuid sq).1 =
        .failed (updateError none (agentTimeoutMsg server_uuid)) →
      (waitUntilAgentsChange server_uuid image_uuid sq).2 = 60) ∧
    StrContains (agentTimeoutMsg server_uuid) "Timeout(5m)" ∧
    StrContains (agentTimeoutMsg server_uuid) server_uuid := by
  refine ⟨?_, ?_, ?_, ?_, ?_, ?_, ?_, ?_, ?_, ?_⟩
  · exact waitTask_counter_le taskid q 59 1
  · intro hp
    exact waitTask_timeout taskid q 59 1 (fun n h1 h2 => hp n h1 (by omega))
  · intro h
    exact waitTask_timeout_imp taskid q 59 1 h
  · have hsplit : ("Timeout(5m) waiting for task ").data =
        ("Timeout(5m)").data ++ (" waiting for task ").data := by decide
    exact ⟨[], (" waiting for task ").data ++ taskid.data,
      by simp [taskTimeoutMsg, String.data_append, hsplit, List.append_assoc]⟩
  · exact ⟨("Timeout(5m) waiting for task ").data, [],
      by simp [taskTimeoutMsg, String.data_append]⟩
  · exact waitServer_counter_le server_uuid image_uuid sq 59 1
  · intro hp
    exact waitServer_timeout server_uuid image_uuid sq 59 1
      (fun n h1 h2 => hp n h1 (by omega))
  · intro h
    exact waitServer_timeout_imp server_uuid image_uuid sq 59 1 h
  · have hsplit : ("Timeout(5m) waiting for cn-agent update on server ").data =
        ("Timeout(5m)").data ++ (" waiting for cn-agent update on server ").data := by decide
    exact ⟨[], (" waiting for cn-agent update on server ").data ++ server_uuid.data,
      by simp [agentTimeoutMsg, String.data_append, hsplit, List.append_assoc]⟩
  · exact ⟨("Timeout(5m) waiting for cn-agent update on server ").data, [],
      by simp [agentTimeoutMsg, String.data_append]⟩

theorem poll_loops_bounded_witness :
    waitUntilTaskCompletes "t1" (fun _ => .qtask ⟨"pending", []⟩) =
      (.failed (updateError none (taskTimeoutMsg "t1")), 60) ∧
    waitUntilAgentsChange "srvA" "img-1" (fun _ => .qserver ⟨[⟨"cn-agent", "img-0"⟩]⟩) =
      (.failed (updateError none (agentTimeoutMsg "srvA")), 60) := by
  have h := poll_loops_bounded "t1" "srvA" "img-1" (fun _ => .qtask ⟨"pending", []⟩)
    (fun _ => .qserver ⟨[⟨"cn-agent", "img-0"⟩]⟩)
  exact ⟨h.2.1 (fun n _ _ => rfl), h.2.2.2.2.2.2.1 (fun n _ _ => rfl)⟩

/-- C5 counterexample: a task that reports status failure with an empty
history makes the poll crash (the source dereferences task.history[0])
instead of failing with the generic Task t1 failed UpdateError that the
claim promises for a task whose history carries no error text. -/
theorem waitTask_empty_history_cex :
    (waitUntilTaskCompletes "t1" (fun _ => .qtask ⟨"failure", []⟩)).1 = .crash ∧
    (waitUntilTaskCompletes "t1" (fun _ => .qtask ⟨"failure", []⟩)).1 ≠
      .failed (updateError none "Task t1 failed") := by
  refine ⟨rfl, fun h => ?_⟩
  rw [show (waitUntilTaskCompletes "t1" (fun _ => TaskQueryRes.qtask ⟨"failure", []⟩)).1 =
      PollResult.crash from rfl] at h
  exact PollResult.noConfusion h

/-- C5 (amended): when the first terminal response arrives at attempt m
within the budget, a failure status with non-empty history fails with an
UpdateError naming the task whose message carries the first history
event error text when present and is the generic Task (id) failed message
otherwise; a failure status with empty history crashes the poll; a
complete status resolves with no error; a query error fails with the
SDCClientError wrapping that error. -/
theorem waitTask_terminal_outcomes (taskid : String) (q : Nat → TaskQueryRes) (m : Nat)
    (hm1 : 1 ≤ m) (hm60 : m ≤ 60)
    (hpend : ∀ n, 1 ≤ n → n < m → taskPending (q n) = true) :
    (∀ t he rest, q m = .qtask t → t.status = "failure" → t.history = he :: rest →
      ∃ msg, waitUntilTaskCompletes taskid q = (.failed (updateError none msg), m) ∧
        (he.event.error = none → msg = "Task " ++ taskid ++ " failed") ∧
        (∀ er, he.event.error = some er →
          msg = "Task " ++ taskid ++ " failed with error: " ++ er.message ∧
          StrContains msg er.message)) ∧
    (∀ t, q m = .qtask t → t.status = "failure" → t.history = [] →
      waitUntilTaskCompletes taskid q = (.crash, m)) ∧
    (∀ t, q m = .qtask t → t.status = "complete" →
      waitUntilTaskCompletes taskid q = (.succeeded, m)) ∧
    (∀ re, q m = .qerr re →
      waitUntilTaskCompletes taskid q = (.failed (sdcClientErrorWF re "cnapi"), m) ∧
      (sdcClientErrorWF re "cnapi").code = "SDCClient" ∧
      (sdcClientErrorWF re "cnapi").cause = some (.inl (reToBody re))) := by
  have hreach : waitUntilTaskCompletes taskid q = waitTask taskid q (59 - (m - 1)) m :=
    waitTask_reach taskid q 59 1 m hm1 (by omega) (fun n a b => hpend n a b)
  refine ⟨?_, ?_, ?_, ?_⟩
  · intro t he rest hq hst hhist
    refine ⟨taskFailureMsg taskid he, ?_, ?_, ?_⟩
    · rw [hreach]
      exact waitTask_terminal taskid q m _
        (by simp [waitTaskStep, hq, hst, hhist]) _
    · intro hne
      simp [taskFailureMsg, hne, String.append_empty]
    · intro er her
      constructor
      · simp [taskFailureMsg, her]
        rw [← String.append_assoc]
        rw [String.append_assoc ("Task " ++ taskid) " failed" " with error: "]
        rw [show (" failed" : String) ++ " with error: " = " failed with error: " from by decide]
      · refine ⟨("Task " ++ taskid ++ " failed with error: ").data, [], ?_⟩
        simp [taskFailureMsg, her, String.data_append, List.append_assoc]
  · intro t hq hst hhist
    rw [hreach]
    exact waitTask_terminal taskid q m _ (by simp [waitTaskStep, hq, hst, hhist]) _
  · intro t hq hst
    rw [hreach]
    have hne : t.status ≠ "failure" := by rw [hst]; decide
    exact waitTask_terminal taskid q m _ (by simp [waitTaskStep, hq, hst, hne]) _
  · intro re hq
    refine ⟨?_, rfl, rfl⟩
    rw [hreach]
    exact waitTask_terminal taskid q m _ (by simp [waitTaskStep, hq]) _

theorem waitTask_terminal_outcomes_witness :
    ∃ msg, waitUntilTaskCompletes "t9"
        (fun _ => .qtask ⟨"failure", [⟨⟨some ⟨"disk full"⟩⟩⟩]⟩) =
        (.failed (updateError none msg), 1) ∧
      msg = "Task " ++ "t9" ++ " failed with error: " ++ "disk full" ∧
      StrContains msg "disk full" := by
  have h := waitTask_terminal_outcomes "t9"
    (fun _ => .qtask ⟨"failure", [⟨⟨some ⟨"disk full"⟩⟩⟩]⟩) 1 (le_refl 1) (by omega)
    (fun n h1 h2 => absurd (lt_of_le_of_lt h1 h2) (lt_irrefl 1))
  obtain ⟨msg, hrun, _, hsome⟩ := h.1 ⟨"failure", [⟨⟨some ⟨"disk full"⟩⟩⟩]⟩
    ⟨⟨some ⟨"disk full"⟩⟩⟩ [] rfl rfl rfl
  exact ⟨msg, hrun, (hsome ⟨"disk full"⟩ rfl).1, (hsome ⟨"disk full"⟩ rfl).2⟩

/-- C10: a getServer response whose agents list has no cn-agent entry
makes the poll step dereference an undefined value: the loop crashes at
that attempt and never invokes its callback with an error. -/
theorem waitServer_missing_agent_crash (server_uuid image_uuid : String)
    (q : Nat → ServerQueryRes) (m : Nat) (s : Server)
    (hm1 : 1 ≤ m) (hm60 : m ≤ 60)
    (hpend : ∀ n, 1 ≤ n → n < m → agentPending image_uuid (q n) = true)
    (hq : q m = .qserver s)
    (hno : s.agents.filter (fun a => a.name == "cn-agent") = []) :
    waitUntilAgentsChange server_uuid image_uuid q = (.crash, m) ∧
    (∀ e : SdcErr, (waitUntilAgentsChange server_uuid image_uuid q).1 ≠ .failed e) ∧
    (waitUntilAgentsChange server_uuid image_uuid q).1 ≠ .succeeded := by
  have hreach : waitUntilAgentsChange server_uuid image_uuid q =
      waitServer server_uuid image_uuid q (59 - (m - 1)) m :=
    waitServer_reach server_uuid image_uuid q 59 1 m hm1 (by omega)
      (fun n a b => hpend n a b)
  have hrun : waitUntilAgentsChange server_uuid image_uuid q = (.crash, m) := by
    rw [hreach]
    exact waitServer_terminal server_uuid image_uuid q m _
      (by simp [waitServerStep, hq, hno]) _
  refine ⟨hrun, ?_, ?_⟩
  · intro e h
    rw [hrun] at h
    exact PollResult.noConfusion h
  · intro h
    rw [hrun] at h
    exact PollResult.noConfusion h

theorem waitServer_missing_agent_crash_witness :
    waitUntilAgentsChange "srvB" "img-1" (fun _ => .qserver ⟨[⟨"net-agent", "x"⟩]⟩) =
      (.crash, 1) := by
  have h := waitServer_missing_agent_crash "srvB" "img-1"
    (fun _ => .qserver ⟨[⟨"net-agent", "x"⟩]⟩) 1 ⟨[⟨"net-agent", "x"⟩]⟩
    (le_refl 1) (by omega)
    (fun n h1 h2 => absurd (lt_of_le_of_lt h1 h2) (lt_irrefl 1))
    rfl (by decide)
  exact h.1

-- ---------------------------------------------------------------------------
-- Version gate, precondition, fan-out and sequencing
-- ---------------------------------------------------------------------------

theorem gate_false_of_lt (v : SemVer) (h : semverLt v v140 = true) :
    cnAgentVersionOK v = false := by
  cases v with
  | mk ma mi pa =>
    rw [Bool.eq_false_iff]
    intro hc
    simp only [ne_eq, semverLt, v140, cnAgentVersionOK, Bool.or_eq_true, Bool.and_eq_true,
      decide_eq_true_eq, SemVer.mk.injEq] at h hc
    omega

theorem gate_true_of_not_lt (v : SemVer) (h : semverLt v v140 = false) :
    cnAgentVersionOK v = true := by
  cases v with
  | mk ma mi pa =>
    rw [Bool.eq_false_iff] at h
    simp only [ne_eq, semverLt, v140, cnAgentVersionOK, Bool.or_eq_true, Bool.and_eq_true,
      decide_eq_true_eq, SemVer.mk.injEq] at h ⊢
    omega

/-- C6: an instance whose co-located cn-agent reports a parsed version
below 1.4.0 gets an UpdateError naming its server recorded and completes
without any install-agent dispatch; an instance whose version passes the
gate (1.4.0 or newer) is dispatched. -/
theorem cn_agent_version_gate (change : Change) (cnAgentInsts : List Inst) (env : Env)
    (arg : Inst) (cna : Inst) (vs : String) (v : SemVer)
    (himg : arg.image.isSome = true)
    (hres : resolveCnAgentInst arg cnAgentInsts = some cna)
    (hver : cna.version = some vs)
    (hp : parseTriple vs = some v) :
    (semverLt v v140 = true →
      upAgent change cnAgentInsts env arg =
        some ⟨false, .completed [updateError none (invalidVersionMsg arg.server vs)] none⟩ ∧
      (updateError none (invalidVersionMsg arg.server vs)).code = "Update" ∧
      StrContains (invalidVersionMsg arg.server vs) arg.server) ∧
    (semverLt v v140 = false →
      ∃ w, upAgent change cnAgentInsts env arg = some w ∧ w.dispatched = true) := by
  obtain ⟨i, hi⟩ := Option.isSome_iff_exists.mp himg
  constructor
  · intro hlt
    have hgate : cnAgentVersionOK v = false := gate_false_of_lt v hlt
    refine ⟨?_, rfl, ?_⟩
    · simp [upAgent, hi, hres, hver, hp, hgate]
    · exact ⟨("Invalid cn-agent version in server ").data,
        (". Minimal version to run agent updates is 1.4.0 (current version is ").data ++
          vs.data ++ (")").data,
        by simp [invalidVersionMsg, String.data_append, List.append_assoc]⟩
  · intro hnlt
    have hgate : cnAgentVersionOK v = true := gate_true_of_not_lt v hnlt
    cases hd : env.dispatch arg.server with
    | derr re =>
      refine ⟨⟨true, .completed [] (some (sdcClientErrorWF re "cnapi"))⟩, ?_, rfl⟩
      simp [upAgent, hi, hres, hver, hp, hgate, hd]
    | dok tid =>
      simp only [upAgent, hi, hres, hver, hp, hgate, hd, if_true]
      split <;> exact ⟨_, rfl, rfl⟩

theorem cn_agent_version_gate_witness :
    upAgent change1 [] env1 instB =
      some ⟨false, .completed [updateError none (invalidVersionMsg "nodeB" "1.2.0")] none⟩ ∧
    StrContains (invalidVersionMsg "nodeB" "1.2.0") "nodeB" := by
  have h := cn_agent_version_gate change1 [] env1 instB instB "1.2.0" ⟨1, 2, 0⟩
    rfl rfl rfl rfl
  have h1 := h.1 (by decide)
  exact ⟨h1.1, h1.2.2⟩

/-- C2: when the first cnapi instance reports a version whose
second-to-last dash-separated field is lexicographically older than
MIN_CNAPI_VERSION, updateAgent fails with the UpdateError of
checkMinCNAPIVersion (code Update, exitStatus 2) and makes no
install-agent dispatch call for the change. -/
theorem checkMinCNAPIVersion_gates_dispatch (env : Env) (change : Change)
    (instances : List Inst) (c0 : Inst) (ver curImg : String)
    (hli : env.listInsts = .ok instances)
    (hc0 : (instances.filter (fun i => i.service == "cnapi")).head? = some c0)
    (hver : c0.version = some ver)
    (hcur : jsIndex ((jsSplit '-' ver.data).map String.mk)
      ((((jsSplit '-' ver.data).map String.mk).length : Int) - 2) = some curImg)
    (hold : jsStrLt curImg.data UpdateAgentV1.MIN_CNAPI_VERSION.data = true) :
    updateAgent env change =
      some ⟨some (.sdc (updateError none (cnapiTooOldMsg curImg))), [], false⟩ ∧
    (updateError none (cnapiTooOldMsg curImg)).code = "Update" ∧
    (updateError none (cnapiTooOldMsg curImg)).exitStatus = 2 := by
  refine ⟨?_, rfl, rfl⟩
  have hcur2 : jsIndex ((jsSplit '-' ver.data).map String.mk)
      (((jsSplit '-' ver.data).length : Int) - 2) = some curImg := by
    simpa [List.length_map] using hcur
  simp [updateAgent, hli, hc0, hver, hcur2, hold]

theorem checkMinCNAPIVersion_gates_dispatch_witness :
    updateAgent env2 change1 =
      some ⟨some (.sdc (updateError none (cnapiTooOldMsg "20150101T000000Z"))), [], false⟩ := by
  have h := checkMinCNAPIVersion_gates_dispatch env2 change1 [cnapiOld, cnA] cnapiOld
    "release-20150101-20150101T000000Z-g1234567" "20150101T000000Z" rfl rfl rfl rfl
    (by decide)
  exact h.1

/-- C1 evaluation at the failing input: with a single target instance
whose install-agent dispatch call fails with a client error, upAgent
produces the SDCClientError but passes it to the queue task callback
(recording nothing in errs), the queue discards it (no per-task callback
was registered), and the change completes with success — the dispatch
error is never recorded in the failure collector and no MultiError is
reported, contradicting the claim and the stated intent of the errs
collector. -/
theorem upAgent_dispatch_error_dropped :
    upAgent change1 [cnA] env1 instA =
      some ⟨true, .completed [] (some (sdcClientErrorWF re0 "cnapi"))⟩ ∧
    updateAgent env1 change1 = some ⟨none, ["srvA"], false⟩ ∧
    (sdcClientErrorWF re0 "cnapi").code = "SDCClient" :=
  ⟨rfl, rfl, rfl⟩

/-- C7: the execute callback receives the first change-level error in
plan order (or success when every processed change succeeded), the
processed changes form a prefix of the plan each fully drained in order,
and on success every change of the plan was processed. -/
theorem uaExecute_sequential_first_error (env : Env) (changes : List Change)
    (pr : PlanRes) (h : uaExecute env changes = some pr) (hcr : pr.crashed = false) :
    pr.err = changes.findSome? (fun ch => (updateAgent env ch).bind ChangeRes.err) ∧
    List.Forall₂ (fun cr ch => updateAgent env ch = some cr)
      pr.perChange (changes.take pr.perChange.length) ∧
    (pr.err = none → pr.perChange.length = changes.length) := by
  induction changes generalizing pr with
  | nil =>
    simp only [uaExecute, Option.some.injEq] at h
    subst h
    exact ⟨rfl, List.Forall₂.nil, fun _ => rfl⟩
  | cons ch rest ih =>
    simp only [uaExecute] at h
    split at h
    · exact absurd h (by simp)
    · rename_i cr hu
      split at h
      · rename_i hcrash
        simp only [Option.some.injEq] at h
        subst h
        exact absurd hcr (by simp)
      · rename_i hcrash
        split at h
        · rename_i e he
          simp only [Option.some.injEq] at h
          subst h
          refine ⟨?_, ?_, ?_⟩
          · simp [List.findSome?_cons, hu, he]
          · exact List.Forall₂.cons hu List.Forall₂.nil
          · intro hnone
            exact absurd hnone (by simp)
        · rename_i he
          split at h
          · exact absurd h (by simp)
          · rename_i pr2 hrest
            simp only [Option.some.injEq] at h
            subst h
            simp only at hcr
            obtain ⟨ih1, ih2, ih3⟩ := ih pr2 hrest hcr
            refine ⟨?_, ?_, ?_⟩
            · simp [List.findSome?_cons, hu, he, ih1]
            · exact List.Forall₂.cons hu ih2
            · intro hnone
              simp only at hnone
              simp [List.length_cons, ih3 hnone]


theorem uaExecute_sequential_first_error_witness :
    (some (ChangeErr.raw re0) : Option ChangeErr) =
      [change1].findSome? (fun ch => (updateAgent envErr ch).bind ChangeRes.err) ∧
    List.Forall₂ (fun cr ch => updateAgent envErr ch = some cr)
      [(⟨some (.raw re0), [], false⟩ : ChangeRes)] ([change1].take 1) ∧
    ((some (ChangeErr.raw re0) : Option ChangeErr) = none →
      [(⟨some (.raw re0), [], false⟩ : ChangeRes)].length = [change1].length) :=
  uaExecute_sequential_first_error envErr [change1]
    ⟨some (.raw re0), [⟨some (.raw re0), [], false⟩], false⟩ rfl rfl

/-- C9: in every queue state reachable while fanning out the instances of
a change, at most CN_CONCUR (= 10) worker invocations are in flight, and
the waiting line is always a suffix of the pushed instance list (items
start in FIFO order). -/
theorem queue_concurrency_bound (change : Change) (s : QState Inst)
    (h : QReach UpdateAgentV1.CN_CONCUR (initQ change.insts) s) :
    s.running.length ≤ UpdateAgentV1.CN_CONCUR ∧
    s.waiting.IsSuffix change.insts := by
  induction h with
  | refl => exact ⟨by simp [initQ], List.suffix_rfl⟩
  | step hreach hstep ih =>
    cases hstep with
    | start x w r f hlt =>
      refine ⟨?_, ?_⟩
      · simp only [List.length_cons]
        exact hlt
      · exact (List.suffix_cons x w).trans ih.2
    | finish r1 r2 x w f =>
      refine ⟨?_, ih.2⟩
      have h1 := ih.1
      simp only [List.length_append, List.length_cons] at h1 ⊢
      omega

theorem queue_concurrency_bound_witness :
    (initQ change1.insts).running.length ≤ UpdateAgentV1.CN_CONCUR ∧
    (initQ change1.insts).waiting.IsSuffix change1.insts :=
  queue_concurrency_bound change1 (initQ change1.insts) QReach.refl

end Sdcadm
